import Mathlib

/-!
Verification development for `golem/core/keysauth.py` (Python 2).

The module is shallowly embedded: pure functions become Lean functions,
methods that mutate an authority instance become functions from an explicit
state (`EccState`, `RsaState`) and a file-system model (`FS`) to a result,
and code that can raise a Python exception returns a `PyResult`.

External primitives (hashlib's sha256 as `sha2`, the hex codec, pycrypto's
RSA object operations, devp2p's `mk_privkey` / `privtopub` / `ECCx`) are
parameters of the embedding, collected in `EccPrims` / `RsaPrims`; the
theorems hold for every instantiation of those parameters.

Machine arithmetic: `sha2` produces an unsigned 256-bit integer, modelled as
`ℕ`.  `KeysAuth._count_min_hash` is `pow(2, 256 - difficulty)`, which in
Python 2 is an exact integer for `difficulty ≤ 256` and an exact binary
float `2^(256-difficulty)` for the (reachable) range `256 < difficulty ≤ 257`;
it is therefore modelled exactly as `(2 : ℚ) ^ ((256 : ℤ) - difficulty)`.
-/

/-- Python exceptions that the embedded code can raise.  `valueError`
stands for the `RSA.importKey` failure family
(ValueError/IndexError/TypeError/IOError) on the paths where the source
does not catch it. -/
inductive PyExc where
  | typeError
  | assertionError
  | ioError
  | valueError
deriving DecidableEq, Repr

/-- Result of running a piece of Python code: a normal value or a raised
exception. -/
inductive PyResult (α : Type) where
  | ok (a : α)
  | exc (e : PyExc)
deriving DecidableEq, Repr

/-- `KeysAuth._count_min_hash(difficulty)`, i.e. `pow(2, 256 - difficulty)`.
For `difficulty > 256` Python 2 returns the exact binary float
`2^(256-difficulty)`, so the value is modelled in `ℚ` with an integer
exponent. -/
def count_min_hash (difficulty : ℤ) : ℚ := (2 : ℚ) ^ ((256 : ℤ) - difficulty)

/-- The `while sha2(key_id) <= min_hash` loop of `KeysAuth.get_difficulty`,
with the loop counter `difficulty` made explicit.  `hsh` is `sha2(key_id)`,
which the source recomputes unchanged on every iteration.  The loop only
terminates when `sha2(key_id) ≥ 1` (for hash value `0` the condition
`0 <= pow(2, 256 - difficulty)` never fails, see `get_difficulty_fuel` /
`difficulty_diverges`), so that bound is carried as a hypothesis. -/
def difficulty_loop (hsh : ℕ) (hp : 1 ≤ hsh) (difficulty : ℕ) : ℤ :=
  if hc : (hsh : ℚ) ≤ count_min_hash difficulty then
    difficulty_loop hsh hp (difficulty + 1)
  else
    (difficulty : ℤ) - 1
termination_by 258 - difficulty
decreasing_by
  have h256 : difficulty ≤ 256 := by
    by_contra hgt
    push_neg at hgt
    have hle : ((256 : ℤ) - difficulty) ≤ (-1 : ℤ) := by
      omega
    have hmono : (2 : ℚ) ^ ((256 : ℤ) - (difficulty : ℤ)) ≤ (2 : ℚ) ^ (-1 : ℤ) :=
      zpow_le_zpow_right₀ (by norm_num) hle
    have hhalf : ((2 : ℚ) ^ (-1 : ℤ)) = 1 / 2 := by
      rw [zpow_neg_one]
      norm_num
    have h1 : (1 : ℚ) ≤ (hsh : ℚ) := by
      exact_mod_cast hp
    have : (1 : ℚ) ≤ 1 / 2 := by
      calc (1 : ℚ) ≤ (hsh : ℚ) := h1
        _ ≤ count_min_hash difficulty := hc
        _ ≤ (2 : ℚ) ^ (-1 : ℤ) := hmono
        _ = 1 / 2 := hhalf
    norm_num at this
  omega

/-- `KeysAuth.get_difficulty` on a key id whose numeric hash `sha2(key_id)`
is `hsh`: starts the search at `difficulty = 0` and returns `difficulty - 1`
once `sha2(key_id) <= pow(2, 256 - difficulty)` first fails. -/
def get_difficulty (hsh : ℕ) (hp : 1 ≤ hsh) : ℤ :=
  difficulty_loop hsh hp 0

/-- The same `get_difficulty` while-loop, instrumented with explicit fuel so
that statements about non-termination (hash value `0`) can be made: `none`
means the loop has not finished within `fuel` iterations. -/
def get_difficulty_fuel (hsh : ℕ) (difficulty : ℕ) (fuel : ℕ) : Option ℤ :=
  match fuel with
  | 0 => none
  | fuel + 1 =>
    if (hsh : ℚ) ≤ count_min_hash difficulty then
      get_difficulty_fuel hsh (difficulty + 1) fuel
    else
      some ((difficulty : ℤ) - 1)

/-- The `get_difficulty` loop on hash value `hsh` never finishes, whatever
the iteration budget. -/
def difficulty_diverges (hsh : ℕ) : Prop :=
  ∀ difficulty fuel, get_difficulty_fuel hsh difficulty fuel = none

/-- There is no maximal difficulty `d ≥ 0` with `hsh ≤ 2^(256 - d)`. -/
def no_max_difficulty_at (hsh : ℕ) : Prop :=
  ¬ ∃ m : ℤ, IsGreatest {d : ℤ | 0 ≤ d ∧ (hsh : ℚ) ≤ count_min_hash d} m

/-- File-system model: an association list from paths to file contents
(the most recent write for a path shadows older entries, as on a real file
system), plus the set of paths on which `open(..., 'w')`/`write` raises
IOError. -/
structure FS where
  files : List (String × String)
  failing : List String
deriving DecidableEq, Repr

/-- Reading a file: the contents at `path`, or `none` when `os.path.isfile`
is false. -/
def FS.lookup (fs : FS) (path : String) : Option String :=
  List.lookup path fs.files

/-- Writing a file: `none` models an IOError raised by `open`/`write`. -/
def FS.write (fs : FS) (path contents : String) : Option FS :=
  if path ∈ fs.failing then none
  else some { fs with files := (path, contents) :: fs.files }

/-- External primitives used by `EllipticalKeysAuth`, as parameters of the
embedding:
* `sha2` — `int(sha256(seed).hexdigest(), 16)` on byte strings;
* `hexEncode` — Python 2 `str.encode('hex')`;
* `privtopub` — devp2p `crypto.privtopub`; `none` models the AssertionError
  it raises on a structurally invalid raw private key.  `ECCx(None, priv)`
  re-derives the public key from `priv` and raises AssertionError in exactly
  the same cases, so it is modelled by `(privtopub priv).isSome`;
* `eccxPubValid` — whether `ECCx(pub)` (public-key form) passes its
  assertions; `eccVerify pub sig data` — `ECCx.verify(sig, data)`;
* `mk_privkey` — devp2p `crypto.mk_privkey`, applied to `str(random())`;
* `keys_dir` — `appdirs.user_data_dir('Golem', 'keys')`;
* `private_key_pref` / `public_key_pref` — the constants imported from
  `golem.core.variables` (their values are not part of this repository). -/
structure EccPrims where
  sha2 : String → ℕ
  hexEncode : String → String
  privtopub : String → Option String
  mk_privkey : String → String
  eccxPubValid : String → Bool
  eccVerify : String → String → String → Bool
  keys_dir : String
  private_key_pref : String
  public_key_pref : String

/-- In-memory state of an `EllipticalKeysAuth` instance.  The `ecc` field of
the source is determined by `private_key` (`ECCx(None, self._private_key)`)
and is not duplicated here. -/
structure EccState where
  private_key : String
  public_key : String
  key_id : String
  uuid : String
deriving DecidableEq, Repr

/-- `KeysAuth._get_private_key_loc(uuid)`:
`os.path.join(get_keys_dir(), (PRIVATE_KEY_PREF + "{}.pem").format(uuid))`. -/
def ecc_private_key_loc (P : EccPrims) (uuid : String) : String :=
  P.keys_dir ++ "/" ++ P.private_key_pref ++ uuid ++ ".pem"

/-- `KeysAuth._get_public_key_loc(uuid)`. -/
def ecc_public_key_loc (P : EccPrims) (uuid : String) : String :=
  P.keys_dir ++ "/" ++ P.public_key_pref ++ uuid ++ ".pubkey"

/-- `EllipticalKeysAuth.cnt_key_id`: `public_key.encode('hex')`. -/
def ecc_cnt_key_id (P : EccPrims) (public_key : String) : String :=
  P.hexEncode public_key

/-- `EllipticalKeysAuth.save_to_files`: writes the raw private key then the
raw public key; an IOError on either write is caught and reported as
`false`, leaving a half-written pair when the second write fails. -/
def ecc_save_to_files (P : EccPrims) (st : EccState) (fs : FS)
    (private_key_loc public_key_loc : String) : Bool × FS :=
  match fs.write private_key_loc st.private_key with
  | none => (false, fs)
  | some fs1 =>
    match fs1.write public_key_loc st.public_key with
    | none => (false, fs1)
    | some fs2 => (true, fs2)

/-- `EllipticalKeysAuth._set_and_save`: replaces the in-memory key pair and
`key_id`, calls `save_to_files` on the default locations *discarding its
boolean result*, and finally rebuilds `self.ecc = ECCx(None, priv)`, which
raises AssertionError when the private key is invalid.  (On that exception
path the partial field updates and file writes are not tracked, since the
exception propagates out of every caller in the source.) -/
def ecc_set_and_save (P : EccPrims) (st : EccState) (fs : FS)
    (priv_key pub_key : String) : PyResult (EccState × FS) :=
  let st' : EccState :=
    { private_key := priv_key, public_key := pub_key,
      key_id := ecc_cnt_key_id P pub_key, uuid := st.uuid }
  let r := ecc_save_to_files P st' fs
    (ecc_private_key_loc P st.uuid) (ecc_public_key_loc P st.uuid)
  if (P.privtopub priv_key).isSome then .ok (st', r.2) else .exc .assertionError

/-- `EllipticalKeysAuth.load_from_file`: `_load_private_key_from_file`
returns the raw file contents (or `None` when the file does not exist);
`privtopub` failures (AssertionError) are caught and reported as `False`
with nothing mutated; otherwise `_set_and_save` installs the new pair and
the method returns `True`. -/
def ecc_load_from_file (P : EccPrims) (st : EccState) (fs : FS)
    (file_name : String) : PyResult (Bool × EccState × FS) :=
  match fs.lookup file_name with
  | none => .ok (false, st, fs)
  | some priv_key =>
    match P.privtopub priv_key with
    | none => .ok (false, st, fs)
    | some pub_key =>
      match ecc_set_and_save P st fs priv_key pub_key with
      | .exc e => .exc e
      | .ok (st', fs') => .ok (true, st', fs')

/-- Value of a single hex digit, as in Python 2's hex codec. -/
def hexVal (c : Char) : Option ℕ :=
  if '0' ≤ c ∧ c ≤ '9' then some (c.toNat - '0'.toNat)
  else if 'a' ≤ c ∧ c ≤ 'f' then some (c.toNat - 'a'.toNat + 10)
  else if 'A' ≤ c ∧ c ≤ 'F' then some (c.toNat - 'A'.toNat + 10)
  else none

/-- Hex decoding of a character list; `none` models the TypeError that
Python 2's `str.decode('hex')` raises on an odd-length string or on a
non-hexadecimal digit. -/
def hexDecodeList : List Char → Option (List Char)
  | [] => some []
  | [_] => none
  | hi :: lo :: rest =>
    match hexVal hi, hexVal lo, hexDecodeList rest with
    | some h, some l, some tail => some (Char.ofNat (16 * h + l) :: tail)
    | _, _, _ => none

/-- Python 2 `s.decode('hex')`. -/
def hexDecode (s : String) : Option String :=
  (hexDecodeList s.data).map fun l => String.mk l

/-- `EllipticalKeysAuth.verify`: the `try` block normalizes a 128-character
hex key to raw form, builds `ECCx(public_key)` and calls its `verify`; only
`AssertionError` is caught (returning `False`), so the TypeError raised by
`public_key.decode('hex')` on a non-hex 128-character key propagates. -/
def ecc_verify (P : EccPrims) (st : EccState) (sig data : String)
    (public_key : Option String) : PyResult Bool :=
  let pk := public_key.getD st.public_key
  if pk.length = 128 then
    match hexDecode pk with
    | none => .exc .typeError
    | some raw =>
      if P.eccxPubValid raw then .ok (P.eccVerify raw sig data) else .ok false
  else
    if P.eccxPubValid pk then .ok (P.eccVerify pk sig data) else .ok false

/-- `EllipticalKeysAuth._generate_keys(uuid)`: derives a fresh pair from one
draw of `random()` (the `seed` argument) and writes both raw keys to the
default locations; directory creation is not modelled (the `FS` model maps
full paths), and a failing write raises IOError. -/
def ecc_generate_keys (P : EccPrims) (fs : FS) (uuid seed : String) :
    PyResult FS :=
  let key := P.mk_privkey seed
  match P.privtopub key with
  | none => .exc .assertionError
  | some pub_key =>
    match fs.write (ecc_private_key_loc P uuid) key with
    | none => .exc .ioError
    | some fs1 =>
      match fs1.write (ecc_public_key_loc P uuid) pub_key with
      | none => .exc .ioError
      | some fs2 => .ok fs2

/-- Lines 39–40 of `KeysAuth.__init__` for the elliptic backend:
`_load_private_key(uuid)` regenerates both files when either is missing and
then reads the private key file; `_load_public_key(uuid)` re-checks (both
files now exist) and reads the public key file.  The boolean records whether
`_generate_keys` ran.  `open` on a file that is still missing raises
IOError. -/
def ecc_load_default (P : EccPrims) (fs : FS) (uuid seed : String) :
    PyResult (String × String × FS × Bool) :=
  match fs.lookup (ecc_private_key_loc P uuid),
        fs.lookup (ecc_public_key_loc P uuid) with
  | some priv_key, some pub_key => .ok (priv_key, pub_key, fs, false)
  | _, _ =>
    match ecc_generate_keys P fs uuid seed with
    | .exc e => .exc e
    | .ok fs1 =>
      match fs1.lookup (ecc_private_key_loc P uuid),
            fs1.lookup (ecc_public_key_loc P uuid) with
      | some priv_key, some pub_key => .ok (priv_key, pub_key, fs1, true)
      | _, _ => .exc .ioError

/-- `EllipticalKeysAuth.__init__(uuid)`: run the base constructor (load or
generate the default pair, set `key_id = cnt_key_id(public_key)`), then try
`ECCx(None, self._private_key)`; on AssertionError regenerate the files from
a second random draw, reload and rebuild.  The boolean of the result records
whether any regeneration happened ("load path taken" ↔ `false`). -/
def ecc_init (P : EccPrims) (fs : FS) (uuid seed1 seed2 : String) :
    PyResult (EccState × FS × Bool) :=
  match ecc_load_default P fs uuid seed1 with
  | .exc e => .exc e
  | .ok (priv_key, pub_key, fs1, gen1) =>
    if (P.privtopub priv_key).isSome then
      .ok ({ private_key := priv_key, public_key := pub_key,
             key_id := ecc_cnt_key_id P pub_key, uuid := uuid }, fs1, gen1)
    else
      match ecc_generate_keys P fs1 uuid seed2 with
      | .exc e => .exc e
      | .ok fs2 =>
        match fs2.lookup (ecc_private_key_loc P uuid),
              fs2.lookup (ecc_public_key_loc P uuid) with
        | some priv2, some pub2 =>
          if (P.privtopub priv2).isSome then
            .ok ({ private_key := priv2, public_key := pub2,
                   key_id := ecc_cnt_key_id P pub2, uuid := uuid }, fs2, true)
          else .exc .assertionError
        | _, _ => .exc .ioError

/-- The public key of the candidate generated from seed `seed`
(`privtopub(mk_privkey(seed))`); `hall` states that `mk_privkey` always
produces a private key that `privtopub` accepts, which lines 407–411 of the
source assume (they call the pair unprotected). -/
def ecc_gen_pub (P : EccPrims)
    (hall : ∀ s, (P.privtopub (P.mk_privkey s)).isSome) (seed : String) :
    String :=
  (P.privtopub (P.mk_privkey seed)).get (hall seed)

/-- The acceptance condition of the `while` loop of
`EllipticalKeysAuth.generate_new`: candidate `n` (from the `n`-th draw of
`random()`) is accepted when `sha2(self.cnt_key_id(pub_key)) <= min_hash`. -/
def ecc_accept (P : EccPrims)
    (hall : ∀ s, (P.privtopub (P.mk_privkey s)).isSome) (rand : ℕ → String)
    (difficulty : ℤ) (n : ℕ) : Prop :=
  (P.sha2 (ecc_cnt_key_id P (ecc_gen_pub P hall (rand n))) : ℚ) ≤
    count_min_hash difficulty

instance ecc_accept_dec (P : EccPrims)
    (hall : ∀ s, (P.privtopub (P.mk_privkey s)).isSome) (rand : ℕ → String)
    (difficulty : ℤ) : DecidablePred (ecc_accept P hall rand difficulty) :=
  fun n =>
    decidable_of_iff
      ((P.sha2 (ecc_cnt_key_id P (ecc_gen_pub P hall (rand n))) : ℚ) ≤
        count_min_hash difficulty) Iff.rfl

/-- `EllipticalKeysAuth.generate_new(difficulty)`: draw candidates until the
first one whose identifier hash is below the threshold, then install it via
`_set_and_save`.  The loop keeps the first accepted candidate, i.e. the one
with the least draw index (`Nat.find`); `hex` is the termination hypothesis
(the source loop is unbounded and simply does not return otherwise). -/
def ecc_generate_new (P : EccPrims)
    (hall : ∀ s, (P.privtopub (P.mk_privkey s)).isSome) (rand : ℕ → String)
    (st : EccState) (fs : FS) (difficulty : ℤ)
    (hex : ∃ n, ecc_accept P hall rand difficulty n) :
    PyResult (EccState × FS) :=
  let n := Nat.find hex
  ecc_set_and_save P st fs (P.mk_privkey (rand n)) (ecc_gen_pub P hall (rand n))

/-- External primitives used by `RSAKeysAuth`.  Private and public pycrypto
key objects are opaque handles (`ℕ`):
* `importKey` — `RSA.importKey` on file contents; `none` models the
  ValueError/IndexError/TypeError/IOError cases the source catches;
* `publickey` — `priv_key.publickey()`; `none` models the
  AssertionError/AttributeError cases the source catches;
* `exportKeyPEM`/`exportKey`/`exportKeyOpenSSH` — the export formats used;
* `hash_hex` — `SimpleHash.hash_hex`;
* `rsa_generate` — successive results of `RSA.generate(2048)`;
* `verifyFn pub data sig` — `pub.verify(data, sig)`, which may raise (the
  source wraps it in no handler). -/
structure RsaPrims where
  importKey : String → Option ℕ
  publickey : ℕ → Option ℕ
  exportKeyPEM : ℕ → String
  exportKey : ℕ → String
  exportKeyOpenSSH : ℕ → String
  hash_hex : String → String
  rsa_generate : ℕ → ℕ
  verifyFn : ℕ → String → String → PyResult Bool
  keys_dir : String
  private_key_pref : String
  public_key_pref : String

/-- In-memory state of an `RSAKeysAuth` instance. -/
structure RsaState where
  private_key : ℕ
  public_key : ℕ
  key_id : String
  uuid : String
deriving DecidableEq, Repr

/-- `KeysAuth._get_private_key_loc(uuid)` for the RSA backend. -/
def rsa_private_key_loc (P : RsaPrims) (uuid : String) : String :=
  P.keys_dir ++ "/" ++ P.private_key_pref ++ uuid ++ ".pem"

/-- `KeysAuth._get_public_key_loc(uuid)` for the RSA backend. -/
def rsa_public_key_loc (P : RsaPrims) (uuid : String) : String :=
  P.keys_dir ++ "/" ++ P.public_key_pref ++ uuid ++ ".pubkey"

/-- `RSAKeysAuth.cnt_key_id`:
`SimpleHash.hash_hex(public_key.exportKey("OpenSSH")[8:])`. -/
def rsa_cnt_key_id (P : RsaPrims) (public_key : ℕ) : String :=
  P.hash_hex ((P.exportKeyOpenSSH public_key).drop 8)

/-- `RSAKeysAuth.verify`: delegates to `public_key.verify(data, sig)` with
no exception handling of its own, so whatever the key object raises
propagates to the caller. -/
def rsa_verify (P : RsaPrims) (st : RsaState) (sig data : String)
    (public_key : Option ℕ) : PyResult Bool :=
  P.verifyFn (public_key.getD st.public_key) data sig

/-- `RSAKeysAuth._set_and_save`: replaces the in-memory key pair and
`key_id`, then writes both exported keys; the writes are not wrapped in any
handler, so a failing write raises IOError. -/
def rsa_set_and_save (P : RsaPrims) (st : RsaState) (fs : FS)
    (priv_key pub_key : ℕ) : PyResult (RsaState × FS) :=
  let st' : RsaState :=
    { private_key := priv_key, public_key := pub_key,
      key_id := rsa_cnt_key_id P pub_key, uuid := st.uuid }
  match fs.write (rsa_private_key_loc P st.uuid) (P.exportKeyPEM priv_key) with
  | none => .exc .ioError
  | some fs1 =>
    match fs1.write (rsa_public_key_loc P st.uuid) (P.exportKey pub_key) with
    | none => .exc .ioError
    | some fs2 => .ok (st', fs2)

/-- `RSAKeysAuth.load_from_file`: `_load_private_key_from_file` returns
`None` when the file is missing or `RSA.importKey` fails; the
`priv_key.publickey()` call is wrapped for AssertionError/AttributeError;
both failures report `False` with nothing mutated. -/
def rsa_load_from_file (P : RsaPrims) (st : RsaState) (fs : FS)
    (file_name : String) : PyResult (Bool × RsaState × FS) :=
  match fs.lookup file_name with
  | none => .ok (false, st, fs)
  | some contents =>
    match P.importKey contents with
    | none => .ok (false, st, fs)
    | some priv_key =>
      match P.publickey priv_key with
      | none => .ok (false, st, fs)
      | some pub_key =>
        match rsa_set_and_save P st fs priv_key pub_key with
        | .exc e => .exc e
        | .ok (st', fs') => .ok (true, st', fs')

/-- `sha2(pub_key)` as called on line 230: `sha2` passes its argument to
`hashlib.sha256`, which in Python 2 requires a string or buffer; a pycrypto
`_RSAobj` instance is neither, so the call raises TypeError for every key
object.  The function returns the exception raised. -/
def rsa_sha2_of_obj (_pub_key : ℕ) : PyExc := .typeError

/-- `RSAKeysAuth.generate_new(difficulty)`: generates a first candidate and
evaluates the loop condition `sha2(pub_key) > min_hash`, whose `sha2` call
raises TypeError (see `rsa_sha2_of_obj`); the loop body, the file writes
that follow it, and any state update are therefore never reached. -/
def rsa_generate_new (P : RsaPrims) (st : RsaState) (fs : FS)
    (difficulty : ℤ) : PyResult (RsaState × FS) :=
  let _min_hash := count_min_hash difficulty
  let priv_key := P.rsa_generate 0
  match P.publickey priv_key with
  | none => .exc .assertionError
  | some pub_key => .exc (rsa_sha2_of_obj pub_key)

/-- `RSAKeysAuth._generate_keys(uuid)` (lines 305–314): generates a fresh
RSA pair (the `n`-th draw of `RSA.generate(2048)`), derives its public key
(`publickey()` unprotected — a failure propagates), and writes the PEM
private export and the default public export to the default locations; the
writes are not wrapped in any handler, so a failing write raises IOError. -/
def rsa_generate_keys (P : RsaPrims) (fs : FS) (uuid : String) (n : ℕ) :
    PyResult FS :=
  let key := P.rsa_generate n
  match P.publickey key with
  | none => .exc .assertionError
  | some pub_key =>
    match fs.write (rsa_private_key_loc P uuid) (P.exportKeyPEM key) with
    | none => .exc .ioError
    | some fs1 =>
      match fs1.write (rsa_public_key_loc P uuid) (P.exportKey pub_key) with
      | none => .exc .ioError
      | some fs2 => .ok fs2

/-- The file-existence / regeneration logic shared by
`RSAKeysAuth._load_private_key` and `RSAKeysAuth._load_public_key`
(lines 284–303): the first loader regenerates both files when either is
missing, then each loader reads its file; the second loader's re-check sees
both files present.  Returns the raw contents of both key files and whether
`_generate_keys` ran.  `open` on a file that is still missing raises
IOError. -/
def rsa_load_default (P : RsaPrims) (fs : FS) (uuid : String) (n : ℕ) :
    PyResult (String × String × FS × Bool) :=
  match fs.lookup (rsa_private_key_loc P uuid),
        fs.lookup (rsa_public_key_loc P uuid) with
  | some priv_pem, some pub_pem => .ok (priv_pem, pub_pem, fs, false)
  | _, _ =>
    match rsa_generate_keys P fs uuid n with
    | .exc e => .exc e
    | .ok fs1 =>
      match fs1.lookup (rsa_private_key_loc P uuid),
            fs1.lookup (rsa_public_key_loc P uuid) with
      | some priv_pem, some pub_pem => .ok (priv_pem, pub_pem, fs1, true)
      | _, _ => .exc .ioError

/-- `RSAKeysAuth.__init__` = `KeysAuth.__init__` (lines 34–42) running with
`RSAKeysAuth._load_private_key`/`_load_public_key`: load (or regenerate)
the default key files, run `RSA.importKey` on each — here *outside* any
handler, so an import failure propagates (`valueError`) — and set
`key_id = cnt_key_id(public_key)`.  The boolean records whether
`_generate_keys` ran. -/
def rsa_init (P : RsaPrims) (fs : FS) (uuid : String) (n : ℕ) :
    PyResult (RsaState × FS × Bool) :=
  match rsa_load_default P fs uuid n with
  | .exc e => .exc e
  | .ok (priv_pem, pub_pem, fs1, gen1) =>
    match P.importKey priv_pem with
    | none => .exc .valueError
    | some priv_key =>
      match P.importKey pub_pem with
      | none => .exc .valueError
      | some pub_key =>
        .ok ({ private_key := priv_key, public_key := pub_key,
               key_id := rsa_cnt_key_id P pub_key, uuid := uuid },
             fs1, gen1)

/-- Concrete elliptic-backend primitives for witnesses. -/
def testEccPrims : EccPrims where
  sha2 := fun _ => 5
  hexEncode := fun s => s
  privtopub := fun s => some ("pub:" ++ s)
  mk_privkey := fun s => "prv:" ++ s
  eccxPubValid := fun _ => false
  eccVerify := fun _ _ _ => true
  keys_dir := "keys"
  private_key_pref := "golem_private_key"
  public_key_pref := "golem_public_key"

/-- Elliptic-backend primitives whose `privtopub` rejects every private key
(structurally invalid key material). -/
def badEccPrims : EccPrims where
  sha2 := fun _ => 5
  hexEncode := fun s => s
  privtopub := fun _ => none
  mk_privkey := fun s => "prv:" ++ s
  eccxPubValid := fun _ => false
  eccVerify := fun _ _ _ => true
  keys_dir := "keys"
  private_key_pref := "golem_private_key"
  public_key_pref := "golem_public_key"

/-- Concrete RSA-backend primitives whose `importKey` rejects everything. -/
def testRsaPrims : RsaPrims where
  importKey := fun _ => none
  publickey := fun k => some (k + 1)
  exportKeyPEM := fun k => "pem:" ++ toString k
  exportKey := fun k => "pub:" ++ toString k
  exportKeyOpenSSH := fun k => "ssh-rsa " ++ toString k
  hash_hex := fun s => s
  rsa_generate := fun n => n
  verifyFn := fun _ _ _ => .exc .typeError
  keys_dir := "keys"
  private_key_pref := "golem_private_key"
  public_key_pref := "golem_public_key"

/-- Concrete RSA-backend primitives whose `importKey` accepts but whose
`publickey()` raises. -/
def testRsaPrims2 : RsaPrims where
  importKey := fun _ => some 7
  publickey := fun _ => none
  exportKeyPEM := fun k => "pem:" ++ toString k
  exportKey := fun k => "pub:" ++ toString k
  exportKeyOpenSSH := fun k => "ssh-rsa " ++ toString k
  hash_hex := fun s => s
  rsa_generate := fun n => n
  verifyFn := fun _ _ _ => .ok true
  keys_dir := "keys"
  private_key_pref := "golem_private_key"
  public_key_pref := "golem_public_key"

/-- A concrete elliptic-authority state. -/
def eccSt0 : EccState :=
  { private_key := "p0", public_key := "q0", key_id := "q0", uuid := "u" }

/-- A concrete RSA-authority state. -/
def rsaSt0 : RsaState :=
  { private_key := 3, public_key := 4, key_id := "ssh-rsa 4", uuid := "u" }

/-- An empty file system with no failing paths. -/
def fs0 : FS := { files := [], failing := [] }

/-- A file system holding one import file with non-key bytes. -/
def garbageFS : FS := { files := [("f", "garbage")], failing := [] }

/-- A file system holding a key-import file, on which writing the default
private-key location of `testEccPrims`/uuid `"u"` raises IOError. -/
def failFS : FS :=
  { files := [("imp", "k")], failing := ["keys/golem_private_keyu.pem"] }

/-- A file system on which both RSA default key files of `testRsaPrims2`
and uuid `"u"` are already present. -/
def rsaFilesFS : FS :=
  { files := [(rsa_private_key_loc testRsaPrims2 "u", "pem-bytes"),
              (rsa_public_key_loc testRsaPrims2 "u", "pub-bytes")],
    failing := [] }

/-- A fixed random stream for witnesses. -/
def testRand : ℕ → String := fun _ => "r"

/-- A 128-character string that is not valid hex. -/
def zOf128 : String := String.mk (List.replicate 128 'z')

theorem count_min_hash_pos (d : ℤ) : 0 < count_min_hash d :=
  zpow_pos (by norm_num) _

theorem count_min_hash_antitone {d e : ℤ} (h : d ≤ e) :
    count_min_hash e ≤ count_min_hash d :=
  zpow_le_zpow_right₀ (by norm_num) (by omega)

theorem difficulty_loop_ge (hsh : ℕ) (hp : 1 ≤ hsh) (d : ℕ) :
    (d : ℤ) - 1 ≤ difficulty_loop hsh hp d := by
  induction d using difficulty_loop.induct hsh hp with
  | case1 d hc ih =>
    rw [difficulty_loop, dif_pos hc]
    omega
  | case2 d hc =>
    rw [difficulty_loop, dif_neg hc]

theorem difficulty_loop_ge_of (hsh : ℕ) (hp : 1 ≤ hsh) (d : ℕ) :
    ∀ e : ℕ, d ≤ e → (hsh : ℚ) ≤ count_min_hash e →
      (e : ℤ) ≤ difficulty_loop hsh hp d := by
  induction d using difficulty_loop.induct hsh hp with
  | case1 d hc ih =>
    intro e hde hce
    rw [difficulty_loop, dif_pos hc]
    rcases Nat.eq_or_lt_of_le hde with heq | hlt
    · have h1 := difficulty_loop_ge hsh hp (d + 1)
      omega
    · exact ih e hlt hce
  | case2 d hc =>
    intro e hde hce
    exfalso
    exact hc (le_trans hce (count_min_hash_antitone (by exact_mod_cast hde)))

theorem difficulty_loop_le_of_not (hsh : ℕ) (hp : 1 ≤ hsh) (d : ℕ) :
    ∀ e : ℕ, d ≤ e → ¬ ((hsh : ℚ) ≤ count_min_hash e) →
      difficulty_loop hsh hp d ≤ (e : ℤ) - 1 := by
  induction d using difficulty_loop.induct hsh hp with
  | case1 d hc ih =>
    intro e hde hne
    rw [difficulty_loop, dif_pos hc]
    have hdne : d ≠ e := by
      rintro rfl
      exact hne hc
    exact ih e (by omega) hne
  | case2 d hc =>
    intro e hde _hne
    rw [difficulty_loop, dif_neg hc]
    omega

theorem get_difficulty_neg_one_le (hsh : ℕ) (hp : 1 ≤ hsh) :
    -1 ≤ get_difficulty hsh hp := by
  have := difficulty_loop_ge hsh hp 0
  simpa [get_difficulty] using this

theorem le_get_difficulty_iff (hsh : ℕ) (hp : 1 ≤ hsh) (e : ℕ) :
    (hsh : ℚ) ≤ count_min_hash e ↔ (e : ℤ) ≤ get_difficulty hsh hp := by
  constructor
  · intro hce
    exact difficulty_loop_ge_of hsh hp 0 e (Nat.zero_le e) hce
  · intro hle
    by_contra hne
    have := difficulty_loop_le_of_not hsh hp 0 e (Nat.zero_le e) hne
    simp only [get_difficulty] at hle
    omega

theorem count_min_hash_zero : count_min_hash 0 = (2 : ℚ) ^ (256 : ℕ) := by
  unfold count_min_hash
  rw [show ((256 : ℤ) - 0) = ((256 : ℕ) : ℤ) by norm_num]
  exact zpow_natCast 2 256

theorem get_difficulty_nonneg (hsh : ℕ) (hp : 1 ≤ hsh) (hub : hsh < 2 ^ 256) :
    0 ≤ get_difficulty hsh hp := by
  have h0 : (hsh : ℚ) ≤ count_min_hash ((0 : ℕ) : ℤ) := by
    rw [show (((0 : ℕ) : ℤ)) = (0 : ℤ) by norm_num, count_min_hash_zero]
    have : (hsh : ℚ) < (2 : ℚ) ^ (256 : ℕ) := by exact_mod_cast hub
    exact this.le
  have := (le_get_difficulty_iff hsh hp 0).1 h0
  simpa using this

theorem difficulty_diverges_zero : difficulty_diverges 0 := by
  intro d fuel
  induction fuel generalizing d with
  | zero => rfl
  | succ fuel ih =>
    have hc : ((0 : ℕ) : ℚ) ≤ count_min_hash d := by
      push_cast
      exact (count_min_hash_pos d).le
    simp only [get_difficulty_fuel, if_pos hc]
    exact ih (d + 1)

/-- C2 (amended to the hash range `[1, 2^256)`): for every identifier whose
numeric hash `sha2(id)` lies in `[1, 2^256)`, `get_difficulty` returns the
maximum `d ≥ 0` such that `sha2(id) ≤ 2^(256 - d)`, and that value is never
negative.  (At hash value `0`, excluded here, the source loop does not
terminate and no such maximum exists — see `c2_counterexample`.) -/
theorem c2_get_difficulty_is_greatest (hsh : ℕ) (hp : 1 ≤ hsh)
    (hub : hsh < 2 ^ 256) :
    0 ≤ get_difficulty hsh hp ∧
    IsGreatest {d : ℤ | 0 ≤ d ∧ (hsh : ℚ) ≤ count_min_hash d}
      (get_difficulty hsh hp) := by
  have hnn := get_difficulty_nonneg hsh hp hub
  refine ⟨hnn, ⟨⟨hnn, ?_⟩, ?_⟩⟩
  · have htn : (((get_difficulty hsh hp).toNat : ℕ) : ℤ) = get_difficulty hsh hp :=
      Int.toNat_of_nonneg hnn
    have hle : (hsh : ℚ) ≤ count_min_hash (((get_difficulty hsh hp).toNat : ℕ) : ℤ) := by
      refine (le_get_difficulty_iff hsh hp (get_difficulty hsh hp).toNat).2 ?_
      rw [htn]
    rwa [htn] at hle
  · rintro b ⟨hb0, hble⟩
    have htn : ((b.toNat : ℕ) : ℤ) = b := Int.toNat_of_nonneg hb0
    have hble' : (hsh : ℚ) ≤ count_min_hash ((b.toNat : ℕ) : ℤ) := by rwa [htn]
    have := (le_get_difficulty_iff hsh hp b.toNat).1 hble'
    rw [htn] at this
    exact this

/-- C2 witness: the amended statement instantiated at hash value 5. -/
theorem c2_witness :
    0 ≤ get_difficulty 5 (by norm_num) ∧
    IsGreatest {d : ℤ | 0 ≤ d ∧ ((5 : ℕ) : ℚ) ≤ count_min_hash d}
      (get_difficulty 5 (by norm_num)) :=
  c2_get_difficulty_is_greatest 5 (by norm_num) (by norm_num)

/-- C2 counterexample: the claim ranges over hashes in `[0, 2^256)`, but at
hash value 0 the `get_difficulty` loop never terminates (no fuel suffices)
and the set `{d ≥ 0 | sha2(id) ≤ 2^(256-d)}` has no maximum, so no returned
value could be that maximum. -/
theorem c2_counterexample : difficulty_diverges 0 ∧ no_max_difficulty_at 0 := by
  refine ⟨difficulty_diverges_zero, ?_⟩
  rintro ⟨m, ⟨hm0, _⟩, hub⟩
  have hmem : (m + 1) ∈ {d : ℤ | 0 ≤ d ∧ ((0 : ℕ) : ℚ) ≤ count_min_hash d} := by
    refine ⟨by omega, ?_⟩
    push_cast
    exact (count_min_hash_pos (m + 1)).le
  have := hub hmem
  omega

/-- C5 (amended to the hash range `[1, 2^256)`): the cheap acceptance test
`sha2(id) ≤ 2^(256 - d)` of `generate_new` holds exactly when
`get_difficulty` of the identifier is at least the target difficulty `d`.
(At hash value 0, excluded here, the acceptance test passes for every `d`
but `get_difficulty` never returns — see `c5_counterexample`.) -/
theorem c5_threshold_iff_difficulty (hsh : ℕ) (hp : 1 ≤ hsh)
    (hub : hsh < 2 ^ 256) (d : ℕ) :
    ((hsh : ℚ) ≤ count_min_hash d ↔ (d : ℤ) ≤ get_difficulty hsh hp) :=
  le_get_difficulty_iff hsh hp d

/-- C5 witness: the amended equivalence instantiated at hash 5, target 3. -/
theorem c5_witness :
    (((5 : ℕ) : ℚ) ≤ count_min_hash 3 ↔ (3 : ℤ) ≤ get_difficulty 5 (by norm_num)) :=
  c5_threshold_iff_difficulty 5 (by norm_num) (by norm_num) 3

/-- C5 counterexample: at hash value 0 (inside the claimed range
`[0, 2^256)`) the threshold test accepts every target difficulty, e.g. 300,
while `get_difficulty` never returns, so the claimed equivalence fails. -/
theorem c5_counterexample :
    (((0 : ℕ) : ℚ) ≤ count_min_hash 300) ∧ difficulty_diverges 0 := by
  constructor
  · push_cast
    exact (count_min_hash_pos 300).le
  · exact difficulty_diverges_zero

/-- C6 (amended with `1 ≤ sha2(a)`): the difficulty score is monotonically
non-increasing in the numeric hash of the identifier, for all identifiers on
which the difficulty loop terminates.  (When `sha2(a) = 0` the loop never
returns for `a` — see `c6_counterexample`.) -/
theorem c6_difficulty_antitone (ha hb : ℕ) (hpa : 1 ≤ ha) (hlt : ha < hb) :
    get_difficulty hb (hpa.trans hlt.le) ≤ get_difficulty ha hpa := by
  have hgm1 : -1 ≤ get_difficulty hb (hpa.trans hlt.le) :=
    get_difficulty_neg_one_le hb _
  rcases lt_or_le (get_difficulty hb (hpa.trans hlt.le)) 0 with hneg | hpos
  · have := get_difficulty_neg_one_le ha hpa
    omega
  · have htn : (((get_difficulty hb (hpa.trans hlt.le)).toNat : ℕ) : ℤ) =
        get_difficulty hb (hpa.trans hlt.le) := Int.toNat_of_nonneg hpos
    have hbpred : (hb : ℚ) ≤
        count_min_hash (((get_difficulty hb (hpa.trans hlt.le)).toNat : ℕ) : ℤ) := by
      refine (le_get_difficulty_iff hb (hpa.trans hlt.le) _).2 ?_
      rw [htn]
    have hapred : (ha : ℚ) ≤
        count_min_hash (((get_difficulty hb (hpa.trans hlt.le)).toNat : ℕ) : ℤ) := by
      refine le_trans ?_ hbpred
      exact_mod_cast Nat.cast_le.mpr hlt.le
    have := (le_get_difficulty_iff ha hpa _).1 hapred
    omega

/-- C6 witness: hashes 1 < 2. -/
theorem c6_witness :
    get_difficulty 2 (by norm_num) ≤ get_difficulty 1 (by norm_num) :=
  c6_difficulty_antitone 1 2 (by norm_num) (by norm_num)

/-- C6 counterexample: the identifiers `a` with `sha2(a) = 0` and `b` with
`sha2(b) = 1` satisfy `sha2(a) < sha2(b)`, yet the source loop computing
`get_difficulty(a)` never returns, so no inequality between the two scores
holds. -/
theorem c6_counterexample : (0 : ℕ) < 1 ∧ difficulty_diverges 0 :=
  ⟨Nat.zero_lt_one, difficulty_diverges_zero⟩

theorem FS.lookup_head (p c : String) (l : List (String × String))
    (fl : List String) : FS.lookup ⟨(p, c) :: l, fl⟩ p = some c := by
  simp [FS.lookup, List.lookup]

theorem FS.lookup_tail {p q : String} (hne : p ≠ q) (c : String)
    (l : List (String × String)) (fl : List String) :
    FS.lookup ⟨(q, c) :: l, fl⟩ p = FS.lookup ⟨l, fl⟩ p := by
  have hb : (p == q) = false := beq_eq_false_iff_ne.mpr hne
  simp [FS.lookup, List.lookup, hb]

theorem FS.write_not_failing {fs : FS} {p : String} (h : p ∉ fs.failing)
    (c : String) : fs.write p c = some ⟨(p, c) :: fs.files, fs.failing⟩ := by
  simp [FS.write, h]

/-- C3 (amended): `EllipticalKeysAuth.verify` returns `False` rather than
raising when the key material fails `ECCx`'s assertion check (both for raw
keys and for well-formed 128-character hex keys), and `RSAKeysAuth.verify`
wraps `public_key.verify` in no handler, so it propagates whatever that call
raises; but a 128-character public key that is not valid hex makes the
elliptic `verify` raise an uncaught TypeError from `decode('hex')` — see
`c3_counterexample`. -/
theorem c3_verify_amended :
    (∀ (P : EccPrims) (st : EccState) (sig data pk : String),
        pk.length ≠ 128 → P.eccxPubValid pk = false →
        ecc_verify P st sig data (some pk) = .ok false) ∧
    (∀ (P : EccPrims) (st : EccState) (sig data pk raw : String),
        pk.length = 128 → hexDecode pk = some raw →
        P.eccxPubValid raw = false →
        ecc_verify P st sig data (some pk) = .ok false) ∧
    (∀ (P : RsaPrims) (st : RsaState) (sig data : String) (pk : ℕ)
        (e : PyExc),
        P.verifyFn pk data sig = .exc e →
        rsa_verify P st sig data (some pk) = .exc e) := by
  refine ⟨?_, ?_, ?_⟩
  · intro P st sig data pk hlen hval
    simp [ecc_verify, hlen, hval]
  · intro P st sig data pk raw hlen hdec hval
    simp [ecc_verify, hlen, hdec, hval]
  · intro P st sig data pk e hv
    simp [rsa_verify, hv]

/-- C3 witness: a short (non-128-character) key rejected by `ECCx` yields
`False` without an exception. -/
theorem c3_witness :
    ecc_verify testEccPrims eccSt0 "s" "d" (some "pk") = .ok false :=
  c3_verify_amended.1 testEccPrims eccSt0 "s" "d" "pk" (by decide) rfl

set_option maxRecDepth 8192 in
/-- C3 counterexample: a 128-character public key made of `'z'` characters
is malformed key material on which `EllipticalKeysAuth.verify` raises
TypeError (from `public_key.decode('hex')`, outside the AssertionError
handler) instead of returning `False`. -/
theorem c3_counterexample :
    ecc_verify testEccPrims eccSt0 "sig" "data" (some zOf128) =
      .exc .typeError := by
  rfl

/-- C7: for both backends, `load_from_file` on a file whose contents are
structurally invalid key material (or on a missing file) returns `False`,
raises nothing, and leaves the in-memory identity and the file system
unchanged: the elliptic backend when `privtopub` rejects the bytes, the RSA
backend when `RSA.importKey` rejects them or when `publickey()` fails. -/
theorem c7_load_invalid_noop :
    (∀ (P : EccPrims) (st : EccState) (fs : FS) (file_name contents : String),
        fs.lookup file_name = some contents → P.privtopub contents = none →
        ecc_load_from_file P st fs file_name = .ok (false, st, fs)) ∧
    (∀ (P : RsaPrims) (st : RsaState) (fs : FS) (file_name contents : String),
        fs.lookup file_name = some contents → P.importKey contents = none →
        rsa_load_from_file P st fs file_name = .ok (false, st, fs)) ∧
    (∀ (P : RsaPrims) (st : RsaState) (fs : FS) (file_name contents : String)
        (k : ℕ),
        fs.lookup file_name = some contents → P.importKey contents = some k →
        P.publickey k = none →
        rsa_load_from_file P st fs file_name = .ok (false, st, fs)) ∧
    (∀ (P : EccPrims) (st : EccState) (fs : FS) (file_name : String),
        fs.lookup file_name = none →
        ecc_load_from_file P st fs file_name = .ok (false, st, fs)) ∧
    (∀ (P : RsaPrims) (st : RsaState) (fs : FS) (file_name : String),
        fs.lookup file_name = none →
        rsa_load_from_file P st fs file_name = .ok (false, st, fs)) := by
  refine ⟨?_, ?_, ?_, ?_, ?_⟩
  · intro P st fs file_name contents h1 h2
    simp [ecc_load_from_file, h1, h2]
  · intro P st fs file_name contents h1 h2
    simp [rsa_load_from_file, h1, h2]
  · intro P st fs file_name contents k h1 h2 h3
    simp [rsa_load_from_file, h1, h2, h3]
  · intro P st fs file_name h1
    simp [ecc_load_from_file, h1]
  · intro P st fs file_name h1
    simp [rsa_load_from_file, h1]

/-- C7 witness: concrete garbage imports for all three failure gates. -/
theorem c7_witness :
    ecc_load_from_file badEccPrims eccSt0 garbageFS "f" =
      .ok (false, eccSt0, garbageFS) ∧
    rsa_load_from_file testRsaPrims rsaSt0 garbageFS "f" =
      .ok (false, rsaSt0, garbageFS) ∧
    rsa_load_from_file testRsaPrims2 rsaSt0 garbageFS "f" =
      .ok (false, rsaSt0, garbageFS) :=
  ⟨c7_load_invalid_noop.1 badEccPrims eccSt0 garbageFS "f" "garbage" rfl rfl,
   c7_load_invalid_noop.2.1 testRsaPrims rsaSt0 garbageFS "f" "garbage" rfl
     rfl,
   c7_load_invalid_noop.2.2.1 testRsaPrims2 rsaSt0 garbageFS "f" "garbage" 7
     rfl rfl rfl⟩

/-- C10: `EllipticalKeysAuth.load_from_file` returns `True` whenever the
file exists and `privtopub` derives a public key from its contents, even
when writing the default private-key file raises IOError: `_set_and_save`
discards the boolean result of `save_to_files`, so the in-memory state is
replaced while the file system is left untouched. -/
theorem c10_load_true_without_persist (P : EccPrims) (st : EccState)
    (fs : FS) (file_name priv_key pub_key : String)
    (hfile : fs.lookup file_name = some priv_key)
    (hpub : P.privtopub priv_key = some pub_key)
    (hfail : ecc_private_key_loc P st.uuid ∈ fs.failing) :
    ecc_load_from_file P st fs file_name =
      .ok (true, { private_key := priv_key, public_key := pub_key,
                   key_id := ecc_cnt_key_id P pub_key, uuid := st.uuid },
           fs) := by
  simp [ecc_load_from_file, hfile, hpub, ecc_set_and_save, ecc_save_to_files,
        FS.write, hfail]

/-- C10 witness: a concrete import of `"k"` with the default private-key
location failing. -/
theorem c10_witness :
    ecc_load_from_file testEccPrims eccSt0 failFS "imp" =
      .ok (true, { private_key := "k", public_key := "pub:k",
                   key_id := ecc_cnt_key_id testEccPrims "pub:k",
                   uuid := "u" }, failFS) :=
  c10_load_true_without_persist testEccPrims eccSt0 failFS "imp" "k" "pub:k"
    rfl rfl (by decide)

/-- C8: saving a Ready authority's pair at the default locations for an
application identifier and then constructing a second authority with the
same identifier yields byte-identical key files, the same public key, the
same `key_id`, and takes the pure load path (no regeneration).  The `Ready`
invariants used are `key_id = cnt_key_id(public_key)` (see C9) and that the
stored private key passes `ECCx`'s assertions (it did when `self.ecc` was
built). -/
theorem c8_save_load_roundtrip (P : EccPrims) (st : EccState) (fs : FS)
    (uuid seed1 seed2 : String)
    (hinv : st.key_id = ecc_cnt_key_id P st.public_key)
    (hvalid : (P.privtopub st.private_key).isSome)
    (hpf : ecc_private_key_loc P uuid ∉ fs.failing)
    (hqf : ecc_public_key_loc P uuid ∉ fs.failing)
    (hne : ecc_private_key_loc P uuid ≠ ecc_public_key_loc P uuid) :
    ∃ fs' : FS,
      ecc_save_to_files P st fs (ecc_private_key_loc P uuid)
          (ecc_public_key_loc P uuid) = (true, fs') ∧
      fs'.lookup (ecc_public_key_loc P uuid) = some st.public_key ∧
      fs'.lookup (ecc_private_key_loc P uuid) = some st.private_key ∧
      ecc_init P fs' uuid seed1 seed2 =
        .ok ({ private_key := st.private_key, public_key := st.public_key,
               key_id := st.key_id, uuid := uuid }, fs', false) := by
  refine ⟨⟨(ecc_public_key_loc P uuid, st.public_key) ::
            (ecc_private_key_loc P uuid, st.private_key) :: fs.files,
           fs.failing⟩, ?_, ?_, ?_, ?_⟩
  · simp [ecc_save_to_files, FS.write, hpf, hqf]
  · exact FS.lookup_head _ _ _ _
  · rw [FS.lookup_tail hne]
    exact FS.lookup_head _ _ _ _
  · have hl1 : FS.lookup ⟨(ecc_public_key_loc P uuid, st.public_key) ::
        (ecc_private_key_loc P uuid, st.private_key) :: fs.files,
        fs.failing⟩ (ecc_private_key_loc P uuid) = some st.private_key := by
      rw [FS.lookup_tail hne]
      exact FS.lookup_head _ _ _ _
    have hl2 : FS.lookup ⟨(ecc_public_key_loc P uuid, st.public_key) ::
        (ecc_private_key_loc P uuid, st.private_key) :: fs.files,
        fs.failing⟩ (ecc_public_key_loc P uuid) = some st.public_key :=
      FS.lookup_head _ _ _ _
    simp [ecc_init, ecc_load_default, hl1, hl2, hvalid, hinv]

/-- C8 witness: concrete save and reload with identifier `"u"`. -/
theorem c8_witness :
    ∃ fs' : FS,
      ecc_save_to_files testEccPrims eccSt0 fs0
          (ecc_private_key_loc testEccPrims "u")
          (ecc_public_key_loc testEccPrims "u") = (true, fs') ∧
      fs'.lookup (ecc_public_key_loc testEccPrims "u") =
        some eccSt0.public_key ∧
      fs'.lookup (ecc_private_key_loc testEccPrims "u") =
        some eccSt0.private_key ∧
      ecc_init testEccPrims fs' "u" "s1" "s2" =
        .ok ({ private_key := eccSt0.private_key,
               public_key := eccSt0.public_key,
               key_id := eccSt0.key_id, uuid := "u" }, fs', false) :=
  c8_save_load_roundtrip testEccPrims eccSt0 fs0 "u" "s1" "s2" rfl rfl
    (by decide) (by decide) (by decide)

theorem ecc_set_and_save_key_id (P : EccPrims) (st : EccState) (fs : FS)
    (priv_key pub_key : String) (st' : EccState) (fs' : FS)
    (h : ecc_set_and_save P st fs priv_key pub_key = .ok (st', fs')) :
    st'.key_id = ecc_cnt_key_id P st'.public_key := by
  simp only [ecc_set_and_save] at h
  split at h
  · simp only [PyResult.ok.injEq, Prod.mk.injEq] at h
    obtain ⟨h1, -⟩ := h
    rw [← h1]
  · exact PyResult.noConfusion h

theorem ecc_init_key_id (P : EccPrims) (fs : FS) (uuid seed1 seed2 : String)
    (st : EccState) (fs' : FS) (b : Bool)
    (h : ecc_init P fs uuid seed1 seed2 = .ok (st, fs', b)) :
    st.key_id = ecc_cnt_key_id P st.public_key := by
  simp only [ecc_init] at h
  split at h
  · exact PyResult.noConfusion h
  · split at h
    · simp only [PyResult.ok.injEq, Prod.mk.injEq] at h
      obtain ⟨h1, -⟩ := h
      rw [← h1]
    · split at h
      · exact PyResult.noConfusion h
      · split at h
        · split at h
          · simp only [PyResult.ok.injEq, Prod.mk.injEq] at h
            obtain ⟨h1, -⟩ := h
            rw [← h1]
          · exact PyResult.noConfusion h
        · exact PyResult.noConfusion h

theorem rsa_set_and_save_key_id (P : RsaPrims) (st : RsaState) (fs : FS)
    (priv_key pub_key : ℕ) (st' : RsaState) (fs' : FS)
    (h : rsa_set_and_save P st fs priv_key pub_key = .ok (st', fs')) :
    st'.key_id = rsa_cnt_key_id P st'.public_key := by
  simp only [rsa_set_and_save] at h
  split at h
  · exact PyResult.noConfusion h
  · split at h
    · exact PyResult.noConfusion h
    · simp only [PyResult.ok.injEq, Prod.mk.injEq] at h
      obtain ⟨h1, -⟩ := h
      rw [← h1]

theorem rsa_init_key_id (P : RsaPrims) (fs : FS) (uuid : String) (n : ℕ)
    (st : RsaState) (fs' : FS) (b : Bool)
    (h : rsa_init P fs uuid n = .ok (st, fs', b)) :
    st.key_id = rsa_cnt_key_id P st.public_key := by
  simp only [rsa_init] at h
  split at h
  · exact PyResult.noConfusion h
  · split at h
    · exact PyResult.noConfusion h
    · split at h
      · exact PyResult.noConfusion h
      · simp only [PyResult.ok.injEq, Prod.mk.injEq] at h
        obtain ⟨h1, -⟩ := h
        rw [← h1]

/-- C9: after every completed constructing or mutating operation of either
backend, the authority's `key_id` equals `cnt_key_id` of its current public
key: established by `__init__` of both backends (`ecc_init`, `rsa_init`)
and by `_set_and_save` (hence by `generate_new` and a successful
`load_from_file`), and preserved by the failure paths of `load_from_file`,
which leave the state untouched. -/
theorem c9_key_id_invariant :
    (∀ (P : EccPrims) (fs : FS) (uuid seed1 seed2 : String) (st : EccState)
        (fs' : FS) (b : Bool),
        ecc_init P fs uuid seed1 seed2 = .ok (st, fs', b) →
        st.key_id = ecc_cnt_key_id P st.public_key) ∧
    (∀ (P : EccPrims) (st : EccState) (fs : FS) (priv_key pub_key : String)
        (st' : EccState) (fs' : FS),
        ecc_set_and_save P st fs priv_key pub_key = .ok (st', fs') →
        st'.key_id = ecc_cnt_key_id P st'.public_key) ∧
    (∀ (P : EccPrims) (st : EccState) (fs : FS) (file_name : String)
        (r : Bool) (st' : EccState) (fs' : FS),
        st.key_id = ecc_cnt_key_id P st.public_key →
        ecc_load_from_file P st fs file_name = .ok (r, st', fs') →
        st'.key_id = ecc_cnt_key_id P st'.public_key) ∧
    (∀ (P : EccPrims) (hall : ∀ s, (P.privtopub (P.mk_privkey s)).isSome)
        (rand : ℕ → String) (st : EccState) (fs : FS) (d : ℤ)
        (hex : ∃ n, ecc_accept P hall rand d n) (st' : EccState) (fs' : FS),
        ecc_generate_new P hall rand st fs d hex = .ok (st', fs') →
        st'.key_id = ecc_cnt_key_id P st'.public_key) ∧
    (∀ (P : RsaPrims) (fs : FS) (uuid : String) (n : ℕ) (st : RsaState)
        (fs' : FS) (b : Bool),
        rsa_init P fs uuid n = .ok (st, fs', b) →
        st.key_id = rsa_cnt_key_id P st.public_key) ∧
    (∀ (P : RsaPrims) (st : RsaState) (fs : FS) (priv_key pub_key : ℕ)
        (st' : RsaState) (fs' : FS),
        rsa_set_and_save P st fs priv_key pub_key = .ok (st', fs') →
        st'.key_id = rsa_cnt_key_id P st'.public_key) ∧
    (∀ (P : RsaPrims) (st : RsaState) (fs : FS) (file_name : String)
        (r : Bool) (st' : RsaState) (fs' : FS),
        st.key_id = rsa_cnt_key_id P st.public_key →
        rsa_load_from_file P st fs file_name = .ok (r, st', fs') →
        st'.key_id = rsa_cnt_key_id P st'.public_key) := by
  refine ⟨?_, ?_, ?_, ?_, ?_, ?_, ?_⟩
  · intro P fs uuid s1 s2 st fs' b h
    exact ecc_init_key_id P fs uuid s1 s2 st fs' b h
  · intro P st fs pk qk st' fs' h
    exact ecc_set_and_save_key_id P st fs pk qk st' fs' h
  · intro P st fs fn r st' fs' hinv h
    rcases hlk : fs.lookup fn with _ | contents
    · simp only [ecc_load_from_file, hlk, PyResult.ok.injEq,
        Prod.mk.injEq] at h
      obtain ⟨-, h2, -⟩ := h
      rw [← h2]
      exact hinv
    · rcases hpp : P.privtopub contents with _ | pub
      · simp only [ecc_load_from_file, hlk, hpp, PyResult.ok.injEq,
          Prod.mk.injEq] at h
        obtain ⟨-, h2, -⟩ := h
        rw [← h2]
        exact hinv
      · rcases hss : ecc_set_and_save P st fs contents pub with p | e
        · obtain ⟨st1, fs1⟩ := p
          simp only [ecc_load_from_file, hlk, hpp, hss, PyResult.ok.injEq,
            Prod.mk.injEq] at h
          obtain ⟨-, h2, -⟩ := h
          rw [← h2]
          exact ecc_set_and_save_key_id P st fs contents pub st1 fs1 hss
        · simp only [ecc_load_from_file, hlk, hpp, hss] at h
          exact PyResult.noConfusion h
  · intro P hall rand st fs d hex st' fs' h
    simp only [ecc_generate_new] at h
    exact ecc_set_and_save_key_id P st fs _ _ st' fs' h
  · intro P fs uuid n st fs' b h
    exact rsa_init_key_id P fs uuid n st fs' b h
  · intro P st fs pk qk st' fs' h
    exact rsa_set_and_save_key_id P st fs pk qk st' fs' h
  · intro P st fs fn r st' fs' hinv h
    rcases hlk : fs.lookup fn with _ | contents
    · simp only [rsa_load_from_file, hlk, PyResult.ok.injEq,
        Prod.mk.injEq] at h
      obtain ⟨-, h2, -⟩ := h
      rw [← h2]
      exact hinv
    · rcases him : P.importKey contents with _ | k
      · simp only [rsa_load_from_file, hlk, him, PyResult.ok.injEq,
          Prod.mk.injEq] at h
        obtain ⟨-, h2, -⟩ := h
        rw [← h2]
        exact hinv
      · rcases hpk : P.publickey k with _ | pub
        · simp only [rsa_load_from_file, hlk, him, hpk, PyResult.ok.injEq,
            Prod.mk.injEq] at h
          obtain ⟨-, h2, -⟩ := h
          rw [← h2]
          exact hinv
        · rcases hss : rsa_set_and_save P st fs k pub with p | e
          · obtain ⟨st1, fs1⟩ := p
            simp only [rsa_load_from_file, hlk, him, hpk, hss,
              PyResult.ok.injEq, Prod.mk.injEq] at h
            obtain ⟨-, h2, -⟩ := h
            rw [← h2]
            exact rsa_set_and_save_key_id P st fs k pub st1 fs1 hss
          · simp only [rsa_load_from_file, hlk, him, hpk, hss] at h
            exact PyResult.noConfusion h

/-- C9 witness: a concrete RSA construction (both default files present, so
the load path runs) and concrete `_set_and_save` runs for both backends. -/
theorem c9_witness :
    (EccState.mk "k" "pub:k" "pub:k" "u").key_id =
      ecc_cnt_key_id testEccPrims "pub:k" ∧
    (RsaState.mk 7 7 "7" "u").key_id = rsa_cnt_key_id testRsaPrims2 7 ∧
    (RsaState.mk 5 6 "6" "u").key_id = rsa_cnt_key_id testRsaPrims 6 :=
  ⟨c9_key_id_invariant.2.1 testEccPrims eccSt0 fs0 "k" "pub:k"
     (EccState.mk "k" "pub:k" "pub:k" "u")
     ⟨[(ecc_public_key_loc testEccPrims "u", "pub:k"),
       (ecc_private_key_loc testEccPrims "u", "k")], []⟩ (by rfl),
   c9_key_id_invariant.2.2.2.2.1 testRsaPrims2 rsaFilesFS "u" 0
     (RsaState.mk 7 7 "7" "u") rsaFilesFS false (by rfl),
   c9_key_id_invariant.2.2.2.2.2.1 testRsaPrims rsaSt0 fs0 5 6
     (RsaState.mk 5 6 "6" "u")
     ⟨[(rsa_public_key_loc testRsaPrims "u", "pub:6"),
       (rsa_private_key_loc testRsaPrims "u", "pem:5")], []⟩ (by rfl)⟩

theorem testHall :
    ∀ s, (testEccPrims.privtopub (testEccPrims.mk_privkey s)).isSome :=
  fun _ => rfl

theorem five_le_cmh0 : ((5 : ℕ) : ℚ) ≤ count_min_hash 0 := by
  rw [count_min_hash_zero]
  norm_num

theorem test_accept0 : ecc_accept testEccPrims testHall testRand 0 0 :=
  five_le_cmh0

theorem testHex : ∃ n, ecc_accept testEccPrims testHall testRand 0 n :=
  ⟨0, test_accept0⟩

/-- C4: after `EllipticalKeysAuth.generate_new(d)` returns, the in-memory
state holds exactly the freshly found pair (the old one is discarded) and,
when the default-location writes succeed, the same pair is on disk at the
app-id-resolved locations; `RSAKeysAuth.generate_new`, by contrast, never
returns normally (see `rsa_sha2_of_obj`), and its body would in any case
only write files, never assigning `_private_key`/`public_key`/`key_id`. -/
theorem c4_generate_new_state :
    (∀ (P : EccPrims) (hall : ∀ s, (P.privtopub (P.mk_privkey s)).isSome)
        (rand : ℕ → String) (st : EccState) (fs : FS) (d : ℤ)
        (hex : ∃ n, ecc_accept P hall rand d n),
        ecc_private_key_loc P st.uuid ∉ fs.failing →
        ecc_public_key_loc P st.uuid ∉ fs.failing →
        ecc_private_key_loc P st.uuid ≠ ecc_public_key_loc P st.uuid →
        ∃ fs' : FS,
          ecc_generate_new P hall rand st fs d hex =
            .ok ({ private_key := P.mk_privkey (rand (Nat.find hex)),
                   public_key := ecc_gen_pub P hall (rand (Nat.find hex)),
                   key_id := ecc_cnt_key_id P
                     (ecc_gen_pub P hall (rand (Nat.find hex))),
                   uuid := st.uuid }, fs') ∧
          fs'.lookup (ecc_private_key_loc P st.uuid) =
            some (P.mk_privkey (rand (Nat.find hex))) ∧
          fs'.lookup (ecc_public_key_loc P st.uuid) =
            some (ecc_gen_pub P hall (rand (Nat.find hex)))) ∧
    (∀ (P : RsaPrims) (st : RsaState) (fs : FS) (d : ℤ) (st' : RsaState)
        (fs' : FS), rsa_generate_new P st fs d ≠ .ok (st', fs')) := by
  constructor
  · intro P hall rand st fs d hex hpf hqf hne
    refine ⟨⟨(ecc_public_key_loc P st.uuid,
              ecc_gen_pub P hall (rand (Nat.find hex))) ::
             (ecc_private_key_loc P st.uuid,
              P.mk_privkey (rand (Nat.find hex))) :: fs.files,
            fs.failing⟩, ?_, ?_, ?_⟩
    · simp [ecc_generate_new, ecc_set_and_save, ecc_save_to_files, FS.write,
        hpf, hqf, hall]
    · rw [FS.lookup_tail hne]
      exact FS.lookup_head _ _ _ _
    · exact FS.lookup_head _ _ _ _
  · intro P st fs d st' fs' h
    simp only [rsa_generate_new] at h
    split at h
    · exact PyResult.noConfusion h
    · exact PyResult.noConfusion h

/-- C4 witness: a concrete elliptic `generate_new` at difficulty 0 and the
RSA failure. -/
theorem c4_witness :
    (∃ fs' : FS,
        ecc_generate_new testEccPrims testHall testRand eccSt0 fs0 0
            testHex =
          .ok ({ private_key := testEccPrims.mk_privkey
                   (testRand (Nat.find testHex)),
                 public_key := ecc_gen_pub testEccPrims testHall
                   (testRand (Nat.find testHex)),
                 key_id := ecc_cnt_key_id testEccPrims
                   (ecc_gen_pub testEccPrims testHall
                     (testRand (Nat.find testHex))),
                 uuid := eccSt0.uuid }, fs') ∧
        fs'.lookup (ecc_private_key_loc testEccPrims eccSt0.uuid) =
          some (testEccPrims.mk_privkey (testRand (Nat.find testHex))) ∧
        fs'.lookup (ecc_public_key_loc testEccPrims eccSt0.uuid) =
          some (ecc_gen_pub testEccPrims testHall
            (testRand (Nat.find testHex)))) ∧
    rsa_generate_new testRsaPrims rsaSt0 fs0 0 ≠ .ok (rsaSt0, fs0) :=
  ⟨c4_generate_new_state.1 testEccPrims testHall testRand eccSt0 fs0 0
     testHex (by decide) (by decide) (by decide),
   c4_generate_new_state.2 testRsaPrims rsaSt0 fs0 0 rsaSt0 fs0⟩

/-- C1: every key pair accepted by `EllipticalKeysAuth.generate_new(d)` has
an identifier whose numeric hash satisfies
`sha2(cnt_key_id(pub)) ≤ 2^(256-d)`, hence (whenever that hash is nonzero,
so that the difficulty loop terminates) `get_difficulty ≥ d`; for
`RSAKeysAuth.generate_new`, however, the loop condition applies `sha2` to
the RSA key object itself — not to `cnt_key_id(pub)` — which raises
TypeError on the first evaluation, so the RSA search never accepts or
persists any pair. -/
theorem c1_pow_acceptance :
    (∀ (P : EccPrims) (hall : ∀ s, (P.privtopub (P.mk_privkey s)).isSome)
        (rand : ℕ → String) (st : EccState) (fs : FS) (d : ℤ)
        (hex : ∃ n, ecc_accept P hall rand d n),
        ∃ (st' : EccState) (fs' : FS),
          ecc_generate_new P hall rand st fs d hex = .ok (st', fs') ∧
          ((P.sha2 st'.key_id : ℚ) ≤ count_min_hash d) ∧
          (∀ hp : 1 ≤ P.sha2 st'.key_id,
            d ≤ get_difficulty (P.sha2 st'.key_id) hp)) ∧
    (∀ (P : RsaPrims) (st : RsaState) (fs : FS) (d : ℤ) (pub_key : ℕ),
        P.publickey (P.rsa_generate 0) = some pub_key →
        rsa_generate_new P st fs d = .exc .typeError) := by
  constructor
  · intro P hall rand st fs d hex
    rcases hgen : ecc_generate_new P hall rand st fs d hex with p | e
    · obtain ⟨st', fs'⟩ := p
      have h2 := hgen
      simp only [ecc_generate_new, ecc_set_and_save] at h2
      simp only [hall, if_true, PyResult.ok.injEq, Prod.mk.injEq] at h2
      obtain ⟨hst, -⟩ := h2
      refine ⟨st', fs', rfl, ?_, ?_⟩
      · rw [← hst]
        exact Nat.find_spec hex
      · intro hp
        have hacc : (P.sha2 st'.key_id : ℚ) ≤ count_min_hash d := by
          rw [← hst]
          exact Nat.find_spec hex
        rcases le_or_lt 0 d with hd0 | hdneg
        · have htn : ((d.toNat : ℕ) : ℤ) = d := Int.toNat_of_nonneg hd0
          have hacc' : (P.sha2 st'.key_id : ℚ) ≤
              count_min_hash ((d.toNat : ℕ) : ℤ) := by rwa [htn]
          have := (le_get_difficulty_iff (P.sha2 st'.key_id) hp d.toNat).1
            hacc'
          omega
        · have := get_difficulty_neg_one_le (P.sha2 st'.key_id) hp
          omega
    · exfalso
      simp only [ecc_generate_new, ecc_set_and_save] at hgen
      simp only [hall, if_true] at hgen
      exact PyResult.noConfusion hgen
  · intro P st fs d pub_key hpk
    simp [rsa_generate_new, hpk, rsa_sha2_of_obj]

/-- C1 witness: the elliptic acceptance at difficulty 0 over concrete
primitives, and the RSA TypeError. -/
theorem c1_witness :
    (∃ (st' : EccState) (fs' : FS),
        ecc_generate_new testEccPrims testHall testRand eccSt0 fs0 0
            testHex = .ok (st', fs') ∧
        ((testEccPrims.sha2 st'.key_id : ℚ) ≤ count_min_hash 0) ∧
        (∀ hp : 1 ≤ testEccPrims.sha2 st'.key_id,
          (0 : ℤ) ≤ get_difficulty (testEccPrims.sha2 st'.key_id) hp)) ∧
    rsa_generate_new testRsaPrims rsaSt0 fs0 0 = .exc .typeError :=
  ⟨c1_pow_acceptance.1 testEccPrims testHall testRand eccSt0 fs0 0 testHex,
   c1_pow_acceptance.2 testRsaPrims rsaSt0 fs0 0 1 rfl⟩
